import Mathlib

/-!
Verification of the multi-strategy deduplicated Reddit collection engine
(`src/etl_scripts/reddit_etl.py`) against its specification.

The pandas dataframe is modelled as a column list plus rows given as
association lists from column name to cell; remote Reddit objects are
modelled with `Except Unit` valued attributes so that an attribute access
can raise, mirroring asyncpraw's lazy attributes.
-/

set_option maxHeartbeats 1000000

deriving instance DecidableEq for Except

namespace RedditETL

/-- A dataframe cell: a string, an integer (also used for epoch timestamps
and the scaled upvote ratio), a boolean, or null (pandas NaN / Python None). -/
inductive Cell where
  | str (s : String)
  | int (n : Int)
  | bool (b : Bool)
  | null
deriving DecidableEq

/-- One dataframe row / one collected record: an association list from
column name to cell, as produced by the extraction dictionaries. -/
abbrev Row := List (String × Cell)

/-- Look up the first cell stored under column `c` in a row
(Python dict / pandas column access). -/
def rowGet : Row → String → Option Cell
  | [], _ => none
  | (k, v) :: r, c => if k = c then some v else rowGet r c

/-- Whitespace test used by `strip`. -/
def isWS (c : Char) : Bool :=
  c = ' ' || c = '\t' || c = '\n' || c = '\r'

/-- Python `str.strip()` on the underlying character list. -/
def trimList (l : List Char) : List Char :=
  ((l.dropWhile isWS).reverse.dropWhile isWS).reverse

/-- Python `str.strip()`. -/
def strTrim (s : String) : String := ⟨trimList s.data⟩

/-- Python `str.lower()` (the sanity test only inspects ASCII `A`-`Z`). -/
def lowerStr (s : String) : String := ⟨s.data.map Char.toLower⟩

/-- Does the character match the sanity-test regex class `[A-Z]`? -/
def upperNat (c : Char) : Bool :=
  decide (65 ≤ c.toNat) && decide (c.toNat ≤ 90)

/-- Does the string contain an uppercase ASCII letter (`[A-Z]`)? -/
def hasUpper (s : String) : Bool := s.data.any upperNat

/-- `datetime.strftime('%Y-%m-%d')` of an epoch timestamp; the calendar
rendering itself is logging-only, so it is modelled as an injective tag. -/
def dateOf (n : Int) : String := "date " ++ toString n

/-- `datetime.strftime('%H:%M:%S')` of an epoch timestamp (logging only). -/
def timeOf (n : Int) : String := "time " ++ toString n

/-- A Reddit author object; reading its `name` attribute may raise. -/
structure RAuthor where
  name : Except Unit String

/-- A Reddit comment object.  `body`, `replies` and `permalink` are guarded
by `hasattr` in the source, so a missing attribute is `none`; the other
attributes may raise on access. -/
structure RComment where
  body : Option String
  created_utc : Except Unit Int
  author : Except Unit (Option RAuthor)
  id : Except Unit String
  score : Except Unit Int
  replies : Option Nat
  permalink : Option String

/-- The `submission.comments` forest: `listResult` models
`replace_more(limit=None)` followed by `.list()` (which may raise), and
`fallback` models the `_comments` attribute holding the replies already
materialized when expansion fails. -/
structure CommentsObj where
  listResult : Except Unit (List RComment)
  fallback : Option (List RComment)

/-- A Reddit submission object with possibly-raising attributes;
`comments` is `none` when the attribute is missing or `None`. -/
structure RSubmission where
  id : Except Unit String
  title : Except Unit String
  selftext : Except Unit String
  is_self : Except Unit Bool
  created_utc : Except Unit Int
  author : Except Unit (Option RAuthor)
  score : Except Unit Int
  upvote_ratio : Except Unit Int
  num_comments : Except Unit Int
  url : Except Unit String
  permalink : Except Unit String
  link_flair_text : Except Unit (Option String)
  comments : Option CommentsObj

/-- Author resolution (`submission.author.name if submission.author else
'[deleted]'` inside its own `try`): any lookup failure or a missing author
becomes the `[deleted]` sentinel. -/
def resolveAuthor : Except Unit (Option RAuthor) → String
  | .error _ => "[deleted]"
  | .ok none => "[deleted]"
  | .ok (some a) =>
    match a.name with
    | .error _ => "[deleted]"
    | .ok n => n

/-- Cell for `submission.link_flair_text` (may be `None`). -/
def flairCell : Option String → Cell
  | none => Cell.null
  | some f => Cell.str f

/-- Self-post text: read `submission.selftext` only for self posts
(lines 437-439 of the source). -/
def selftextIf (isSelf : Bool) (s : RSubmission) : Except Unit String :=
  if isSelf then s.selftext else pure ""

/-- Body of `extract_submission_data` before its enclosing `try`:
combine title and selftext, reject short text, then build the record. -/
def extract_submission_dataE (s : RSubmission) : Except Unit (Option Row) := do
  let cu ← s.created_utc
  let isSelf ← s.is_self
  let st ← selftextIf isSelf s
  let t ← s.title
  let full := t ++ " " ++ st
  if (strTrim full).length < 5 then
    pure none
  else do
    let an := resolveAuthor s.author
    let sid ← s.id
    let sc ← s.score
    let ur ← RSubmission.upvote_ratio s
    let nc ← s.num_comments
    let u ← s.url
    let pl ← s.permalink
    let fl ← s.link_flair_text
    pure (some [("id", Cell.str sid), ("type", Cell.str "post"),
      ("complaint", Cell.str full), ("username", Cell.str an),
      ("timestamp", Cell.int cu), ("timestamp_dt", Cell.int cu),
      ("date", Cell.str (dateOf cu)), ("time", Cell.str (timeOf cu)),
      ("upvotes", Cell.int sc), ("upvote_ratio", Cell.int ur),
      ("total_comments", Cell.int nc), ("url", Cell.str u),
      ("permalink", Cell.str ("https://www.reddit.com" ++ pl)),
      ("is_self_post", Cell.bool isSelf), ("flair", flairCell fl),
      ("title", Cell.str t)])

/-- `extract_submission_data`: the enclosing `try` maps any internal
exception to `None`. -/
def extract_submission_data (s : RSubmission) : Option Row :=
  match extract_submission_dataE s with
  | .ok r => r
  | .error _ => none

/-- The combined `f"{submission.title} {selftext}"` text, when the needed
attribute reads succeed (lines 437-442 of the source). -/
def fullTextOfE (s : RSubmission) : Except Unit String := do
  let isSelf ← s.is_self
  let st ← selftextIf isSelf s
  let t ← s.title
  pure (t ++ " " ++ st)

/-- The combined text as an optional value (`none` when some needed
attribute read raises). -/
def fullTextOf (s : RSubmission) : Option String := (fullTextOfE s).toOption

/-- The part of `extract_comment_data` past the `hasattr` test, given the
comment body: reject a short/deleted/removed body, then build the record. -/
def extract_comment_body (b : String) (c : RComment) (parent : RSubmission) :
    Except Unit (Option Row) :=
  if (strTrim b).length < 5 ∨ b = "[deleted]" ∨ b = "[removed]" then
    pure none
  else do
      let cu ← c.created_utc
      let an := resolveAuthor c.author
      let cid ← c.id
      let sc ← c.score
      let pid ← parent.id
      let pt ← parent.title
      pure (some [("id", Cell.str cid), ("type", Cell.str "comment"),
        ("complaint", Cell.str b), ("username", Cell.str an),
        ("timestamp", Cell.int cu), ("timestamp_dt", Cell.int cu),
        ("date", Cell.str (dateOf cu)), ("time", Cell.str (timeOf cu)),
        ("upvotes", Cell.int sc), ("upvote_ratio", Cell.null),
        ("total_comments", Cell.int (c.replies.getD 0)),
        ("url", Cell.null),
        ("permalink", match c.permalink with
          | some p => Cell.str ("https://www.reddit.com" ++ p)
          | none => Cell.null),
        ("is_self_post", Cell.null), ("flair", Cell.null),
        ("parent_submission_id", Cell.str pid),
        ("parent_submission_title", Cell.str pt)])

/-- Body of `extract_comment_data` before its enclosing `try`: a comment
without a `body` attribute is rejected, the rest is `extract_comment_body`. -/
def extract_comment_dataE (c : RComment) (parent : RSubmission) :
    Except Unit (Option Row) :=
  match c.body with
  | none => pure none
  | some b => extract_comment_body b c parent

/-- `extract_comment_data`: the enclosing `try` maps any internal
exception to `None`. -/
def extract_comment_data (c : RComment) (parent : RSubmission) : Option Row :=
  match extract_comment_dataE c parent with
  | .ok r => r
  | .error _ => none

/-- The extraction loop of `process_comments`: extract each reply, then tag
it with `f"comment_in_{submission.id}"`.  The tagging line sits outside the
extractor's own `try`, so if reading `submission.id` raises there, the
outer handler returns the rows accumulated so far. -/
def harvestLoop (s : RSubmission) : List RComment → List Row → List Row
  | [], acc => acc
  | c :: rest, acc =>
    match extract_comment_data c s with
    | none => harvestLoop s rest acc
    | some r =>
      match s.id with
      | .error _ => acc
      | .ok sid =>
        harvestLoop s rest (acc ++ [r ++ [("source", Cell.str ("comment_in_" ++ sid))]])

/-- `process_comments`: expand the reply tree; if `replace_more`/`list`
raises, fall back to the already materialized `_comments` subset (or the
empty list), and extract each reply.  All failures are absorbed. -/
def process_comments (s : RSubmission) : List Row :=
  match s.comments with
  | none => []
  | some co =>
    match co.listResult with
    | .ok l => harvestLoop s l []
    | .error _ =>
      match co.fallback with
      | some l => harvestLoop s l []
      | none => []

/-- The per-submission comment loop of every strategy: append each
harvested reply whose id is not yet in the shared dedup set, adding it to
the set. -/
def commentFold : List Row → List String → List Row × List String
  | [], p => ([], p)
  | r :: rest, p =>
    match rowGet r "id" with
    | some (Cell.str cid) =>
      if cid ∈ p then commentFold rest p
      else
        let (d, p') := commentFold rest (cid :: p)
        (r :: d, p')
    | _ => commentFold rest p

/-- How one strategy's item loop ended: the stream was exhausted, a `break`
was taken, or an exception was raised (by the page iterator or by an
attribute access on the current item). -/
inductive PStat where
  | done
  | broke
  | raised
deriving DecidableEq

/-- The shared item loop of all four collection loops
(`collect_monthly_paginated`, `collect_sorting`, `collect_search_posts`,
`collect_flair_posts`): for each submission of the stream, read
`created_utc`, apply the out-of-range test `skip` (breaking instead of
continuing when `brkOnSkip`, i.e. for `new` sorting), skip ids already in
the shared dedup set, extract, tag with `tag`, register the id, then
harvest and dedup the replies.  A stream element `Except.error ()` is a
page fetch that raised. -/
def processStream (skip : Int → Bool) (brkOnSkip : Bool) (tag : String) :
    List (Except Unit RSubmission) → List String → List Row × List String × PStat
  | [], p => ([], p, .done)
  | .error _ :: _, p => ([], p, .raised)
  | .ok s :: rest, p =>
    match s.created_utc with
    | .error _ => ([], p, .raised)
    | .ok cu =>
      if skip cu then
        if brkOnSkip then ([], p, .broke)
        else processStream skip brkOnSkip tag rest p
      else
        match s.id with
        | .error _ => ([], p, .raised)
        | .ok sid =>
          if sid ∈ p then processStream skip brkOnSkip tag rest p
          else
            match extract_submission_data s with
            | none => processStream skip brkOnSkip tag rest p
            | some r =>
              let r' := r ++ [("source", Cell.str tag)]
              let (cd, p₂) := commentFold (process_comments s) (sid :: p)
              let (d, p₃, st) := processStream skip brkOnSkip tag rest p₂
              (r' :: (cd ++ d), p₃, st)

/-- The cutoff test `submission.created_utc < since`. -/
def skipSince (since : Int) : Int → Bool := fun cu => decide (cu < since)

/-- The `source` tag of `collect_sorting` for one time filter. -/
def sortTag (method : String) : Option String → String
  | none => method
  | some f => method ++ "_" ++ f

/-- Time filters enumerated by `collect_sorting` for a sorting method. -/
def timeFiltersFor (method : String) : List (Option String) :=
  if method = "top" ∨ method = "controversial" then
    [some "all", some "year", some "month", some "week"]
  else [none]

/-- The time-filter loop of `collect_sorting`.  The `try` of
`collect_sorting` encloses this whole loop, so a raised status aborts the
remaining filters while returning the data collected so far; a normal or
broken stream continues with the next filter. -/
def collectSortingGo (fetch : Option String → List (Except Unit RSubmission))
    (since : Int) (method : String) :
    List (Option String) → List String → List Row × List String
  | [], p => ([], p)
  | tf :: rest, p =>
    let dps := processStream (skipSince since) (method == "new")
      (sortTag method tf) (fetch tf) p
    match dps.2.2 with
    | .raised => (dps.1, dps.2.1)
    | _ =>
      let dp2 := collectSortingGo fetch since method rest dps.2.1
      (dps.1 ++ dp2.1, dp2.2)

/-- `collect_sorting`: enumerate one sorting method (with its time
filters) against the shared dedup set. -/
def collect_sorting (fetch : Option String → List (Except Unit RSubmission))
    (since : Int) (p : List String) (method : String) :
    List Row × List String :=
  collectSortingGo fetch since method (timeFiltersFor method) p

/-- The per-term loop shared verbatim by `collect_search_posts` and
`collect_flair_posts`: each term gets its own `try`, so a raised status is
scoped to that term and the next term is always processed. -/
def collectTermsGo (tagOf : String → String)
    (fetch : String → List (Except Unit RSubmission)) (since : Int) :
    List String → List String → List Row × List String
  | [], p => ([], p)
  | t :: ts, p =>
    let dps := processStream (skipSince since) false (tagOf t) (fetch t) p
    let dp2 := collectTermsGo tagOf fetch since ts dps.2.1
    (dps.1 ++ dp2.1, dp2.2)

/-- The fixed keyword vocabulary of `collect_search_posts`. -/
def searchTerms : List String :=
  ["problem", "issue", "terrible", "bad", "great", "awesome",
   "driver", "delivery", "order", "customer service", "refund",
   "cancel", "late", "missing", "wrong", "charge", "tip",
   "food", "cold", "wait", "app", "error", "crash", "glitch",
   "overcharge", "price", "expensive", "discount", "promo",
   "experience", "rating", "dasher", "courier", "vehicle", "bike", "car",
   "delayed", "damaged", "quality", "packaging", "restaurant", "merchant",
   "address", "location", "gps", "map", "directions", "instructions",
   "communication", "contact", "support", "chat", "phone", "call", "text",
   "payment", "card", "wallet", "subscription", "plus", "fees", "tax",
   "receipt", "estimate", "actual", "notification", "tracking", "map",
   "account", "login", "password", "verification", "bonus", "reward",
   "satisfaction", "disappointed", "happy", "frustrated", "angry", "love",
   "hate", "never again", "first time", "loyal", "regular", "customer",
   "lost", "stolen", "compensation", "resolution", "solution", "fixed",
   "fast", "slow", "quick", "temperature", "hot", "warm", "frozen",
   "delivered", "received", "picked up", "preparing", "ready",
   "\"customer service\"", "\"delivery time\"", "\"wrong order\"",
   "\"missing items\"", "\"cold food\"", "\"wrong address\"",
   "\"not delivered\"", "\"damaged food\"", "\"bad experience\"",
   "\"great service\"", "\"friendly driver\"", "\"app issues\""]

/-- `collect_search_posts` over its fixed keyword vocabulary. -/
def collect_search_posts (fetch : String → List (Except Unit RSubmission))
    (since : Int) (p : List String) : List Row × List String :=
  collectTermsGo (fun t => "search_" ++ t) fetch since searchTerms p

/-- The fixed flair vocabulary of `collect_flair_posts`. -/
def flairsList : List String :=
  ["Complaint", "Issue", "Question", "Discussion", "Experience",
   "Feedback", "Problem", "Help", "Rant", "PSA", "Warning", "Tip"]

/-- `collect_flair_posts` over its fixed flair vocabulary. -/
def collect_flair_posts (fetch : String → List (Except Unit RSubmission))
    (since : Int) (p : List String) : List Row × List String :=
  collectTermsGo (fun f => "flair_" ++ f) fetch since flairsList p

/-- The 30-day windows walked by `collect_monthly_paginated`:
while `start < end`, emit `(start, min (start + 30 days) end)` and advance
to that window's end. -/
def windows (start stop : Nat) : List (Nat × Nat) :=
  if h : start < stop then
    let e := min (start + 30 * 24 * 60 * 60) stop
    (start, e) :: windows e stop
  else []
termination_by stop - start
decreasing_by
  omega

/-- The window loop of `collect_monthly_paginated`: each window has its
own `try`, so a raised status is scoped to that window. -/
def collectMonthlyGo (fetch : Nat × Nat → List (Except Unit RSubmission)) :
    List (Nat × Nat) → List String → List Row × List String
  | [], p => ([], p)
  | w :: ws, p =>
    let dps := processStream
      (fun cu => decide (cu < (w.1 : Int)) || decide ((w.2 : Int) < cu)) false
      ("monthly_" ++ dateOf (w.1 : Int)) (fetch w) p
    let dp2 := collectMonthlyGo fetch ws dps.2.1
    (dps.1 ++ dp2.1, dp2.2)

/-- `collect_monthly_paginated` from the cutoff to now. -/
def collect_monthly_paginated (fetch : Nat × Nat → List (Except Unit RSubmission))
    (start now : Nat) (p : List String) : List Row × List String :=
  collectMonthlyGo fetch (windows start now) p

/-- Column set of `pd.DataFrame(list_of_dicts)`: the union of the rows'
keys in order of first appearance. -/
def unionKeys (data : List Row) : List String :=
  data.foldl (fun acc r =>
    acc ++ ((r.map Prod.fst).filter (fun k => ¬ acc.contains k))) []

/-- Align one dict with the frame's columns, padding missing keys with NaN. -/
def padRow (cols : List String) (r : Row) : Row :=
  cols.map (fun c => (c, (rowGet r c).getD Cell.null))

/-- A dataframe: its column list and its rows. -/
structure DataFrame where
  cols : List String
  rows : List Row
deriving DecidableEq

/-- `drop_duplicates(subset=['id'])`: keep the first row for each value of
the `id` column (pandas also treats NaNs as duplicates of each other). -/
def dedupByKey (c : String) : List Row → List (Option Cell) → List Row
  | [], _ => []
  | r :: rest, seen =>
    if (rowGet r c) ∈ seen then dedupByKey c rest seen
    else r :: dedupByKey c rest (rowGet r c :: seen)

/-- Sort key of `sort_values(by='timestamp_dt')`. -/
def tsKey (r : Row) : Option Int :=
  match rowGet r "timestamp_dt" with
  | some (Cell.int n) => some n
  | _ => none

/-- Row comparison of `sort_values(by='timestamp_dt', ascending=False)`:
descending by timestamp, NaN keys last. -/
def byTsDesc (a b : Row) : Prop :=
  match tsKey a, tsKey b with
  | some x, some y => y ≤ x
  | some _, none => True
  | none, some _ => False
  | none, none => True

instance : DecidableRel byTsDesc := by
  intro a b
  unfold byTsDesc
  match tsKey a, tsKey b with
  | some x, some y => exact inferInstanceAs (Decidable (y ≤ x))
  | some _, none => exact inferInstanceAs (Decidable True)
  | none, some _ => exact inferInstanceAs (Decidable False)
  | none, none => exact inferInstanceAs (Decidable True)

instance : IsTotal Row byTsDesc := by
  constructor
  intro a b
  unfold byTsDesc
  match tsKey a, tsKey b with
  | some x, some y => exact le_total y x
  | some _, none => exact Or.inl trivial
  | none, some _ => exact Or.inr trivial
  | none, none => exact Or.inl trivial

instance : IsTrans Row byTsDesc := by
  constructor
  intro a b c
  unfold byTsDesc
  match ha : tsKey a, hb : tsKey b, hc : tsKey c with
  | some x, some y, some z => exact fun h1 h2 => le_trans h2 h1
  | some _, some _, none => exact fun _ _ => trivial
  | some _, none, some _ => exact fun _ h2 => h2.elim
  | some _, none, none => exact fun _ _ => trivial
  | none, some _, _ => exact fun h1 _ => h1.elim
  | none, none, some _ => exact fun _ h2 => h2.elim
  | none, none, none => exact fun _ _ => trivial

/-- `process_dataframe`: build the frame from the concatenated strategy
outputs, drop duplicate ids, and sort newest-first.  pandas raises a
`KeyError` when a frame lacks a column named in `drop_duplicates` or
`sort_values`. -/
def process_dataframe (data : List Row) : Except String DataFrame :=
  let cols := unionKeys data
  let rows := data.map (padRow cols)
  if cols.contains "id" then
    if cols.contains "timestamp_dt" then
      .ok ⟨cols, List.insertionSort byTsDesc (dedupByKey "id" rows [])⟩
    else .error "KeyError: timestamp_dt"
  else .error "KeyError: id"

/-- Is the cell present and not NaN (row kept by `dropna`)? -/
def cellNotNull : Option Cell → Bool
  | some Cell.null => false
  | some _ => true
  | none => false

/-- Row predicate of `dropna(subset=['complaint', 'timestamp_dt'])`. -/
def keepRow (r : Row) : Bool :=
  cellNotNull (rowGet r "complaint") && cellNotNull (rowGet r "timestamp_dt")

/-- `.str.lower()` on one cell: lowercase a string, keep NaN, and turn any
non-string value into NaN (pandas `.str` semantics). -/
def cellLower : Cell → Cell
  | Cell.str s => Cell.str (lowerStr s)
  | _ => Cell.null

/-- Apply `cellLower` to the `complaint` column of a row. -/
def lowerCellAt (c : String) (r : Row) : Row :=
  r.map (fun kv => if kv.1 = c then (kv.1, cellLower kv.2) else kv)

/-- The column renaming of `transform_data`. -/
def renameFn (c : String) : String :=
  if c = "complaint" then "review"
  else if c = "timestamp_dt" then "review_datetime"
  else if c = "upvotes" then "upvote_count"
  else c

/-- Rename the keys of one row. -/
def renameKeys (f : String → String) (r : Row) : Row :=
  r.map (fun kv => (f kv.1, kv.2))

/-- Overwrite every cell stored under key `c`. -/
def setKey (c : String) (v : Cell) (r : Row) : Row :=
  r.map (fun kv => if kv.1 = c then (c, v) else kv)

/-- `df[c] = v` on one row: overwrite when the column exists, else append. -/
def setConstRow (cols : List String) (c : String) (v : Cell) (r : Row) : Row :=
  if cols.contains c then setKey c v r else r ++ [(c, v)]

/-- `df[c] = v` on the column list. -/
def colsAfterSet (cols : List String) (c : String) : List String :=
  if cols.contains c then cols else cols ++ [c]

/-- The columns dropped at the end of `transform_data`. -/
def dropList : List String :=
  ["id", "date", "type", "time", "timestamp", "url",
   "permalink", "is_self_post", "source", "upvote_ratio",
   "flair", "username", "title"]

/-- Remove the dropped columns from one row. -/
def dropKeys (cs : List String) : Row → Row
  | [] => []
  | (k, v) :: r => if cs.contains k then dropKeys cs r else (k, v) :: dropKeys cs r

/-- `transform_data`: the data-quality logging reads `complaint`,
`timestamp_dt`, `upvotes` and `total_comments` (raising `KeyError` when
absent), then rows with null text or timestamp are dropped, text is
lowercased, columns are renamed, `data_source`/`app_name` are attached,
and the source-internal columns are dropped (`KeyError` when absent). -/
def transform_data (df : DataFrame) (app : String) : Except String DataFrame :=
  if df.cols.contains "complaint" then
    if df.cols.contains "timestamp_dt" then
      if df.cols.contains "upvotes" then
        if df.cols.contains "total_comments" then
          let rows1 := df.rows.filter keepRow
          let rows2 := rows1.map (lowerCellAt "complaint")
          let cols2 := df.cols.map renameFn
          let rows3 := rows2.map (renameKeys renameFn)
          let cols3 := colsAfterSet cols2 "data_source"
          let rows4 := rows3.map (setConstRow cols2 "data_source" (Cell.str "Reddit"))
          let cols4 := colsAfterSet cols3 "app_name"
          let rows5 := rows4.map (setConstRow cols3 "app_name" (Cell.str app))
          if dropList.all (fun c => cols4.contains c) then
            .ok ⟨cols4.filter (fun c => !(dropList.contains c)),
                 rows5.map (dropKeys dropList)⟩
          else .error "KeyError: drop"
        else .error "KeyError: total_comments"
      else .error "KeyError: upvotes"
    else .error "KeyError: timestamp_dt"
  else .error "KeyError: complaint"

/-- The per-row rewrite performed by `transform_data` on a kept row. -/
def normRow (cols : List String) (app : String) (r : Row) : Row :=
  dropKeys dropList
    (setConstRow (colsAfterSet (cols.map renameFn) "data_source") "app_name"
      (Cell.str app)
      (setConstRow (cols.map renameFn) "data_source" (Cell.str "Reddit")
        (renameKeys renameFn (lowerCellAt "complaint" r))))

/-- Rows of the persisted processed set (nothing is persisted on error). -/
def resultRows : Except String DataFrame → List Row
  | .ok df => df.rows
  | .error _ => []

/-- The review text of a processed row is present, non-null, and free of
uppercase ASCII letters (the invariant asserted by `run_sanity_tests`). -/
def reviewOk (r : Row) : Bool :=
  match rowGet r "review" with
  | some (Cell.str t) => !(hasUpper t)
  | _ => false

/-- The review timestamp of a processed row is present and non-null. -/
def tsOk (r : Row) : Bool :=
  match rowGet r "review_datetime" with
  | some Cell.null => false
  | some _ => true
  | none => false

/-- The `complaint` cell of a collected raw row is a string or NaN (true
of every row either extractor can produce, and of pandas padding). -/
def complaintCellOk (r : Row) : Bool :=
  match rowGet r "complaint" with
  | some (Cell.str _) => true
  | some Cell.null => true
  | _ => false

/-- Two rows carry different ids. -/
def idNe (a b : Row) : Prop := rowGet a "id" ≠ rowGet b "id"

/-- Contiguity of two adjacent collection windows. -/
def windowAdj (a b : Nat × Nat) : Prop := a.2 = b.1

/-- Running the normalization step on its own output. -/
def transformTwice (df : DataFrame) (app : String) : Except String DataFrame :=
  match transform_data df app with
  | .ok d => transform_data d app
  | .error e => .error e

/-- The accepted-record body-text invariant: the `complaint` cell is a
string of trimmed length at least 5 and is not a deleted/removed sentinel. -/
def bodyOk (r : Row) : Prop :=
  match rowGet r "complaint" with
  | some (Cell.str b) =>
    5 ≤ (strTrim b).length ∧ b ≠ "[deleted]" ∧ b ≠ "[removed]"
  | _ => False

/-! ### Sample objects used by witnesses and counterexamples -/

/-- A well-behaved submission: every attribute read succeeds, the content
is 40 days old with meaningful text, and there are no replies. -/
def okSub : RSubmission where
  id := .ok "p1"
  title := .ok "Late order"
  selftext := .ok "driver never showed"
  is_self := .ok true
  created_utc := .ok 1000
  author := .ok none
  score := .ok 5
  upvote_ratio := .ok 95
  num_comments := .ok 2
  url := .ok "https://example.com"
  permalink := .ok "/r/x/p1"
  link_flair_text := .ok none
  comments := none

/-- A submission whose `created_utc` read raises. -/
def errSub : RSubmission := { okSub with created_utc := .error () }

/-- A submission with too-short combined text. -/
def shortSub : RSubmission :=
  { okSub with title := .ok "ok", selftext := .ok "", is_self := .ok false }

/-- The concrete record extracted from `okSub`. -/
def okPostRow : Row :=
  [("id", Cell.str "p1"), ("type", Cell.str "post"),
   ("complaint", Cell.str "Late order driver never showed"),
   ("username", Cell.str "[deleted]"),
   ("timestamp", Cell.int 1000), ("timestamp_dt", Cell.int 1000),
   ("date", Cell.str (dateOf 1000)), ("time", Cell.str (timeOf 1000)),
   ("upvotes", Cell.int 5), ("upvote_ratio", Cell.int 95),
   ("total_comments", Cell.int 2), ("url", Cell.str "https://example.com"),
   ("permalink", Cell.str "https://www.reddit.com/r/x/p1"),
   ("is_self_post", Cell.bool true), ("flair", Cell.null),
   ("title", Cell.str "Late order")]

/-- A well-behaved comment. -/
def okComment : RComment where
  body := some "great service!"
  created_utc := .ok 500
  author := .ok none
  id := .ok "c1"
  score := .ok 1
  replies := none
  permalink := none

/-- A comment whose body is too short to be accepted. -/
def shortComment : RComment := { okComment with body := some "ok" }

/-- A submission whose reply-tree expansion raises after one page of
replies was materialized. -/
def fbSub : RSubmission :=
  { okSub with comments := some ⟨.error (), some [okComment]⟩ }

/-- The `collect_sorting` fetch of the C3 counterexample: the page
iterator of the `all` time filter raises, while the `year` time filter
holds a fresh, in-range, extractable submission. -/
def cFetchTop : Option String → List (Except Unit RSubmission) :=
  fun tf =>
    if tf = some "all" then [.error ()]
    else if tf = some "year" then [.ok okSub]
    else []

/-- A one-row raw frame with the full extracted-post schema. -/
def cRawRow : Row :=
  [("id", Cell.str "p1"), ("type", Cell.str "post"),
   ("complaint", Cell.str "Great app!"), ("username", Cell.str "u1"),
   ("timestamp", Cell.int 10), ("timestamp_dt", Cell.int 10),
   ("date", Cell.str (dateOf 10)), ("time", Cell.str (timeOf 10)),
   ("upvotes", Cell.int 1), ("upvote_ratio", Cell.int 95),
   ("total_comments", Cell.int 0), ("url", Cell.str "u"),
   ("permalink", Cell.str "pl"), ("is_self_post", Cell.bool true),
   ("flair", Cell.null), ("title", Cell.str "Great app!"),
   ("source", Cell.str "new")]

/-- The column list of `cRawRow`. -/
def cRawCols : List String :=
  ["id", "type", "complaint", "username", "timestamp", "timestamp_dt",
   "date", "time", "upvotes", "upvote_ratio", "total_comments", "url",
   "permalink", "is_self_post", "flair", "title", "source"]

/-- The concrete raw dataframe. -/
def cDF6 : DataFrame := ⟨cRawCols, [cRawRow]⟩

/-- The row `transform_data` produces from `cRawRow`. -/
def cOut6Row : Row :=
  [("review", Cell.str "great app!"), ("review_datetime", Cell.int 10),
   ("upvote_count", Cell.int 1), ("total_comments", Cell.int 0),
   ("data_source", Cell.str "Reddit"), ("app_name", Cell.str "App")]

/-- The dataframe `transform_data` produces from `cDF6`. -/
def cOut6 : DataFrame :=
  ⟨["review", "review_datetime", "upvote_count", "total_comments",
    "data_source", "app_name"], [cOut6Row]⟩

/-- Two raw records with the same id, as two strategies might emit. -/
def cDupData : List Row :=
  [[("id", Cell.str "a"), ("timestamp_dt", Cell.int 5)],
   [("id", Cell.str "a"), ("timestamp_dt", Cell.int 3)]]

/-- The frame `process_dataframe` builds from `cDupData`. -/
def cDupDF : DataFrame :=
  ⟨["id", "timestamp_dt"], [[("id", Cell.str "a"), ("timestamp_dt", Cell.int 5)]]⟩

/-! ### Helper lemmas -/

lemma getLast?_cons_some {α : Type} (a x : α) (l : List α)
    (h : l.getLast? = some x) : (a :: l).getLast? = some x := by
  cases l with
  | nil => simp at h
  | cons b m => rw [List.getLast?_cons_cons]; exact h

lemma windows_head (c n : Nat) (h : c < n) :
    (windows c n).head? = some (c, min (c + 30 * 24 * 60 * 60) n) := by
  rw [windows]
  simp [h]

lemma windows_chain (c n : Nat) :
    List.Chain' windowAdj (windows c n) := by
  induction c, n using windows.induct with
  | case1 c n h e ih =>
    rw [windows]
    simp only [dif_pos h]
    rw [List.chain'_cons']
    constructor
    · intro y hy
      by_cases h2 : min (c + 30 * 24 * 60 * 60) n < n
      · rw [windows_head _ _ h2] at hy
        simp at hy
        simp [windowAdj, ← hy]
      · rw [windows] at hy
        simp [h2] at hy
    · exact ih
  | case2 c n h =>
    rw [windows]
    simp [h]

lemma windows_ends (c n : Nat) :
    ∀ w ∈ windows c n, w.2 = min (w.1 + 30 * 24 * 60 * 60) n := by
  induction c, n using windows.induct with
  | case1 c n h e ih =>
    rw [windows]
    simp only [dif_pos h]
    intro w hw
    rcases List.mem_cons.1 hw with h1 | h2
    · simp [h1]
    · exact ih w h2
  | case2 c n h =>
    rw [windows]
    simp [h]

lemma windows_mono (c n : Nat) : ∀ w ∈ windows c n, w.1 < w.2 := by
  induction c, n using windows.induct with
  | case1 c n h e ih =>
    rw [windows]
    simp only [dif_pos h]
    intro w hw
    rcases List.mem_cons.1 hw with h1 | h2
    · subst h1
      simp
      omega
    · exact ih w h2
  | case2 c n h =>
    rw [windows]
    simp [h]

lemma windows_last (c n : Nat) :
    c < n → (windows c n).getLast?.map Prod.snd = some n := by
  induction c, n using windows.induct with
  | case1 c n h e ih =>
    intro _
    rw [windows]
    simp only [dif_pos h]
    by_cases h3 : e < n
    · obtain ⟨w, hw, hw2⟩ := Option.map_eq_some'.1 (ih h3)
      rw [getLast?_cons_some _ w _ hw]
      simp [hw2]
    · have hnil : windows e n = [] := by rw [windows]; simp [h3]
      have he : e = n := by simp only [e] at h3 ⊢; omega
      simp [hnil, he]
      omega
  | case2 c n h =>
    intro h2
    omega

/-! ### Claim theorems -/

/-- C4: in the time-windowed pagination strategy, the 30-day windows
generated from the cutoff to now are contiguous and non-overlapping: each
window's end is the next window's start, each window's end is
`min (start + 30 days, now)`, windows advance monotonically, and the final
window's end equals the run's now timestamp. -/
theorem claim_C4_windows (c n : Nat) (h : c < n) :
    List.Chain' windowAdj (windows c n)
    ∧ (∀ w ∈ windows c n, w.2 = min (w.1 + 30 * 24 * 60 * 60) n)
    ∧ (∀ w ∈ windows c n, w.1 < w.2)
    ∧ (windows c n).getLast?.map Prod.snd = some n :=
  ⟨windows_chain c n, windows_ends c n, windows_mono c n, windows_last c n h⟩

/-- Witness for C4 at a concrete cutoff and now. -/
theorem claim_C4_windows_witness :
    0 < 5000000
    ∧ (windows 0 5000000).getLast?.map Prod.snd = some 5000000 :=
  ⟨by decide, (claim_C4_windows 0 5000000 (by decide)).2.2.2⟩

lemma ok_bind {α β : Type} (a : α) (f : α → Except Unit β) :
    (Except.ok a >>= f) = f a := rfl

lemma extract_comment_dataE_some (c : RComment) (ps : RSubmission) (b : String)
    (hb : c.body = some b) :
    extract_comment_dataE c ps = extract_comment_body b c ps := by
  unfold extract_comment_dataE
  rw [hb]

lemma append_space_ne_sentinel (t st : String) :
    t ++ " " ++ st ≠ "[deleted]" ∧ t ++ " " ++ st ≠ "[removed]" := by
  have hm : ' ' ∈ (t ++ " " ++ st).data := by
    simp only [String.data_append]
    refine List.mem_append.2 (Or.inl (List.mem_append.2 (Or.inr ?_)))
    decide
  constructor <;> intro h <;> rw [h] at hm <;> revert hm <;> decide

/-- C2: every record accepted by submission extraction or comment
extraction has trimmed body-text length at least 5 and a body that is
never a deleted/removed sentinel; a comment whose body is too short or a
sentinel is rejected with null, and a submission whose combined text is
too short is rejected with null. -/
theorem claim_C2_body_text :
    (∀ s r, extract_submission_data s = some r → bodyOk r)
    ∧ (∀ c ps r, extract_comment_data c ps = some r → bodyOk r)
    ∧ (∀ c ps b, c.body = some b →
        ((strTrim b).length < 5 ∨ b = "[deleted]" ∨ b = "[removed]") →
        extract_comment_data c ps = none)
    ∧ (∀ s ft, fullTextOf s = some ft → (strTrim ft).length < 5 →
        extract_submission_data s = none) := by
  refine ⟨?_, ?_, ?_, ?_⟩
  · intro s r h
    unfold extract_submission_data extract_submission_dataE at h
    rcases hcu : s.created_utc with e | cu <;> rw [hcu] at h
    · exact Option.noConfusion h
    simp only [ok_bind] at h
    rcases his : s.is_self with e | isSelf <;> rw [his] at h
    · exact Option.noConfusion h
    simp only [ok_bind] at h
    rcases hst : selftextIf isSelf s with e | st <;> rw [hst] at h
    · exact Option.noConfusion h
    simp only [ok_bind] at h
    rcases ht : s.title with e | t <;> rw [ht] at h
    · exact Option.noConfusion h
    simp only [ok_bind] at h
    by_cases hlen : (strTrim (t ++ " " ++ st)).length < 5
    · rw [if_pos hlen] at h
      exact Option.noConfusion h
    rw [if_neg hlen] at h
    rcases hid : s.id with e | sid <;> rw [hid] at h
    · exact Option.noConfusion h
    simp only [ok_bind] at h
    rcases hsc : s.score with e | sc <;> rw [hsc] at h
    · exact Option.noConfusion h
    simp only [ok_bind] at h
    rcases hur : RSubmission.upvote_ratio s with e | ur <;> rw [hur] at h
    · exact Option.noConfusion h
    simp only [ok_bind] at h
    rcases hnc : s.num_comments with e | nc <;> rw [hnc] at h
    · exact Option.noConfusion h
    simp only [ok_bind] at h
    rcases hu : s.url with e | u <;> rw [hu] at h
    · exact Option.noConfusion h
    simp only [ok_bind] at h
    rcases hpl : s.permalink with e | pl <;> rw [hpl] at h
    · exact Option.noConfusion h
    simp only [ok_bind] at h
    rcases hfl : s.link_flair_text with e | fl <;> rw [hfl] at h
    · exact Option.noConfusion h
    simp only [ok_bind] at h
    have hr := Option.some.inj h
    subst hr
    simp only [bodyOk]
    simp [rowGet]
    exact ⟨by omega, (append_space_ne_sentinel t st).1,
      (append_space_ne_sentinel t st).2⟩
  · intro c ps r h
    unfold extract_comment_data at h
    rcases hb : c.body with _ | b
    · unfold extract_comment_dataE at h
      rw [hb] at h
      exact Option.noConfusion h
    rw [extract_comment_dataE_some c ps b hb] at h
    unfold extract_comment_body at h
    by_cases hbad : (strTrim b).length < 5 ∨ b = "[deleted]" ∨ b = "[removed]"
    · rw [if_pos hbad] at h
      exact Option.noConfusion h
    rw [if_neg hbad] at h
    rcases hcu : c.created_utc with e | cu <;> rw [hcu] at h
    · exact Option.noConfusion h
    simp only [ok_bind] at h
    rcases hid : c.id with e | cid <;> rw [hid] at h
    · exact Option.noConfusion h
    simp only [ok_bind] at h
    rcases hsc : c.score with e | sc <;> rw [hsc] at h
    · exact Option.noConfusion h
    simp only [ok_bind] at h
    rcases hpid : ps.id with e | pid <;> rw [hpid] at h
    · exact Option.noConfusion h
    simp only [ok_bind] at h
    rcases hpt : ps.title with e | pt <;> rw [hpt] at h
    · exact Option.noConfusion h
    simp only [ok_bind] at h
    have hr := Option.some.inj h
    subst hr
    push_neg at hbad
    simp only [bodyOk]
    simp [rowGet]
    exact ⟨by omega, hbad.2.1, hbad.2.2⟩
  · intro c ps b hb hbad
    unfold extract_comment_data
    rw [extract_comment_dataE_some c ps b hb]
    unfold extract_comment_body
    rw [if_pos hbad]
    rfl
  · intro s ft hft hlen
    unfold fullTextOf fullTextOfE at hft
    unfold extract_submission_data extract_submission_dataE
    rcases hcu : s.created_utc with e | cu
    · rfl
    simp only [ok_bind]
    rcases his : s.is_self with e | isSelf <;> rw [his] at hft
    · exact Option.noConfusion hft
    simp only [ok_bind] at hft ⊢
    rcases hst : selftextIf isSelf s with e | st <;> rw [hst] at hft
    · exact Option.noConfusion hft
    simp only [ok_bind] at hft ⊢
    rcases ht : s.title with e | t <;> rw [ht] at hft
    · exact Option.noConfusion hft
    simp only [ok_bind] at hft ⊢
    have hfte := Option.some.inj hft
    subst hfte
    rw [if_pos hlen]
    rfl

/-- Witness for C2: a concrete submission is accepted with a valid body,
and the scenario body `"ok"` (trimmed length 2) is rejected. -/
theorem claim_C2_body_text_witness :
    extract_submission_data okSub = some okPostRow
    ∧ bodyOk okPostRow
    ∧ extract_comment_data shortComment okSub = none :=
  ⟨by decide, claim_C2_body_text.1 okSub okPostRow (by decide),
   claim_C2_body_text.2.2.1 shortComment okSub "ok" rfl (Or.inl (by decide))⟩

/-- C10: both extractors are total at their interface: any internal
exception of the extraction body maps to a null result, so at the call
site a failed extraction is indistinguishable from an ordinary rejection
(here: an attribute failure and a too-short text give the same `none`). -/
theorem claim_C10_extractors_total :
    (∀ s, extract_submission_dataE s = .error () → extract_submission_data s = none)
    ∧ (∀ c ps, extract_comment_dataE c ps = .error () →
        extract_comment_data c ps = none)
    ∧ extract_submission_dataE errSub = .error ()
    ∧ extract_submission_data errSub = none
    ∧ extract_submission_data shortSub = none
    ∧ extract_submission_data errSub = extract_submission_data shortSub := by
  refine ⟨?_, ?_, by rfl, by rfl, by rfl, by rfl⟩
  · intro s h
    unfold extract_submission_data
    rw [h]
  · intro c ps h
    unfold extract_comment_data
    rw [h]

/-- Witness for C10 at the concrete failing submission. -/
theorem claim_C10_extractors_total_witness :
    extract_submission_data errSub = none :=
  claim_C10_extractors_total.1 errSub (by rfl)

lemma processStream_cons_accept (skip : Int → Bool) (brk : Bool) (tag : String)
    (s : RSubmission) (rest : List (Except Unit RSubmission)) (p : List String)
    (cu : Int) (sid : String) (r : Row)
    (hcu : s.created_utc = .ok cu) (hs : skip cu = false)
    (hid : s.id = .ok sid) (hmem : sid ∉ p)
    (hex : extract_submission_data s = some r) :
    processStream skip brk tag (.ok s :: rest) p =
      ((r ++ [("source", Cell.str tag)]) ::
        ((commentFold (process_comments s) (sid :: p)).1 ++
          (processStream skip brk tag rest
            (commentFold (process_comments s) (sid :: p)).2).1),
       (processStream skip brk tag rest
         (commentFold (process_comments s) (sid :: p)).2).2.1,
       (processStream skip brk tag rest
         (commentFold (process_comments s) (sid :: p)).2).2.2) := by
  rcases hcf : commentFold (process_comments s) (sid :: p) with ⟨cd, p₂⟩
  rcases hps : processStream skip brk tag rest p₂ with ⟨d, p₃, st⟩
  conv_lhs => rw [processStream]
  simp [hcu, hid, hex, hs, hmem, hcf, hps]

/-- C9: the reply harvester never raises past its boundary: when the
submission has no reply forest it yields the empty list; when expansion
fails it degrades to the already materialized subset (or the empty list);
and an accepted submission whose harvest degraded still lets the strategy
loop continue with the remaining candidates of the stream. -/
theorem claim_C9_harvester_fallback :
    (∀ s, s.comments = none → process_comments s = [])
    ∧ (∀ s co fb, s.comments = some co → co.listResult = .error () →
        co.fallback = some fb → process_comments s = harvestLoop s fb [])
    ∧ (∀ s co, s.comments = some co → co.listResult = .error () →
        co.fallback = none → process_comments s = [])
    ∧ (∀ skip brk tag s rest p cu sid r,
        s.created_utc = .ok cu → skip cu = false →
        s.id = .ok sid → sid ∉ p → extract_submission_data s = some r →
        processStream skip brk tag (.ok s :: rest) p =
          ((r ++ [("source", Cell.str tag)]) ::
            ((commentFold (process_comments s) (sid :: p)).1 ++
              (processStream skip brk tag rest
                (commentFold (process_comments s) (sid :: p)).2).1),
           (processStream skip brk tag rest
             (commentFold (process_comments s) (sid :: p)).2).2.1,
           (processStream skip brk tag rest
             (commentFold (process_comments s) (sid :: p)).2).2.2)) := by
  refine ⟨?_, ?_, ?_, ?_⟩
  · intro s h
    unfold process_comments
    rw [h]
  · intro s co fb hco hlr hfb
    unfold process_comments
    simp [hco, hlr, hfb]
  · intro s co hco hlr hfb
    unfold process_comments
    simp [hco, hlr, hfb]
  · intro skip brk tag s rest p cu sid r hcu hs hid hmem hex
    exact processStream_cons_accept skip brk tag s rest p cu sid r
      hcu hs hid hmem hex

/-- Witness for C9: the harvester of the concrete rate-limited submission
degrades to the records extracted from its one materialized reply. -/
theorem claim_C9_harvester_fallback_witness :
    process_comments fbSub = harvestLoop fbSub [okComment] [] :=
  claim_C9_harvester_fallback.2.1 fbSub ⟨.error (), some [okComment]⟩
    [okComment] rfl rfl rfl

lemma processStream_nil (skip : Int → Bool) (brk : Bool) (tag : String)
    (p : List String) : processStream skip brk tag [] p = ([], p, .done) := rfl

lemma processStream_cons_iterErr (skip : Int → Bool) (brk : Bool) (tag : String)
    (e : Unit) (rest : List (Except Unit RSubmission)) (p : List String) :
    processStream skip brk tag (.error e :: rest) p = ([], p, .raised) := rfl

lemma processStream_cons_cuErr (skip : Int → Bool) (brk : Bool) (tag : String)
    (s : RSubmission) (rest : List (Except Unit RSubmission)) (p : List String)
    (e : Unit) (hcu : s.created_utc = .error e) :
    processStream skip brk tag (.ok s :: rest) p = ([], p, .raised) := by
  conv_lhs => rw [processStream]
  simp [hcu]

lemma processStream_cons_brk (skip : Int → Bool) (tag : String)
    (s : RSubmission) (rest : List (Except Unit RSubmission)) (p : List String)
    (cu : Int) (hcu : s.created_utc = .ok cu) (hs : skip cu = true) :
    processStream skip true tag (.ok s :: rest) p = ([], p, .broke) := by
  conv_lhs => rw [processStream]
  simp [hcu, hs]

lemma processStream_cons_skip (skip : Int → Bool) (tag : String)
    (s : RSubmission) (rest : List (Except Unit RSubmission)) (p : List String)
    (cu : Int) (hcu : s.created_utc = .ok cu) (hs : skip cu = true) :
    processStream skip false tag (.ok s :: rest) p =
      processStream skip false tag rest p := by
  conv_lhs => rw [processStream]
  simp [hcu, hs]

lemma processStream_cons_idErr (skip : Int → Bool) (brk : Bool) (tag : String)
    (s : RSubmission) (rest : List (Except Unit RSubmission)) (p : List String)
    (cu : Int) (e : Unit) (hcu : s.created_utc = .ok cu) (hs : skip cu = false)
    (hid : s.id = .error e) :
    processStream skip brk tag (.ok s :: rest) p = ([], p, .raised) := by
  conv_lhs => rw [processStream]
  simp [hcu, hs, hid]

lemma processStream_cons_seen (skip : Int → Bool) (brk : Bool) (tag : String)
    (s : RSubmission) (rest : List (Except Unit RSubmission)) (p : List String)
    (cu : Int) (sid : String) (hcu : s.created_utc = .ok cu)
    (hs : skip cu = false) (hid : s.id = .ok sid) (hmem : sid ∈ p) :
    processStream skip brk tag (.ok s :: rest) p =
      processStream skip brk tag rest p := by
  conv_lhs => rw [processStream]
  simp [hcu, hs, hid, hmem]

lemma processStream_cons_rej (skip : Int → Bool) (brk : Bool) (tag : String)
    (s : RSubmission) (rest : List (Except Unit RSubmission)) (p : List String)
    (cu : Int) (sid : String) (hcu : s.created_utc = .ok cu)
    (hs : skip cu = false) (hid : s.id = .ok sid) (hmem : sid ∉ p)
    (hex : extract_submission_data s = none) :
    processStream skip brk tag (.ok s :: rest) p =
      processStream skip brk tag rest p := by
  conv_lhs => rw [processStream]
  simp [hcu, hs, hid, hmem, hex]

lemma processStream_append_stop (skip : Int → Bool) (brk : Bool) (tag : String)
    (l₁ : List (Except Unit RSubmission)) :
    ∀ l₂ p d p' st, processStream skip brk tag l₁ p = (d, p', st) → st ≠ .done →
      processStream skip brk tag (l₁ ++ l₂) p = (d, p', st) := by
  induction l₁ with
  | nil =>
    intro l₂ p d p' st h hst
    rw [processStream_nil] at h
    injection h with h1 h23
    injection h23 with h2 h3
    subst h3
    exact absurd rfl hst
  | cons x l₁ ih =>
    intro l₂ p d p' st h hst
    cases x with
    | error e =>
      rw [processStream_cons_iterErr] at h
      rw [List.cons_append, processStream_cons_iterErr]
      exact h
    | ok s =>
      rcases hcu : s.created_utc with e | cu
      · rw [processStream_cons_cuErr _ _ _ _ _ _ _ hcu] at h
        rw [List.cons_append, processStream_cons_cuErr _ _ _ _ _ _ _ hcu]
        exact h
      by_cases hs : skip cu = true
      · cases brk with
        | true =>
          rw [processStream_cons_brk _ _ _ _ _ _ hcu hs] at h
          rw [List.cons_append, processStream_cons_brk _ _ _ _ _ _ hcu hs]
          exact h
        | false =>
          rw [processStream_cons_skip _ _ _ _ _ _ hcu hs] at h
          rw [List.cons_append, processStream_cons_skip _ _ _ _ _ _ hcu hs]
          exact ih l₂ p d p' st h hst
      rw [Bool.not_eq_true] at hs
      rcases hid : s.id with e | sid
      · rw [processStream_cons_idErr _ _ _ _ _ _ _ _ hcu hs hid] at h
        rw [List.cons_append, processStream_cons_idErr _ _ _ _ _ _ _ _ hcu hs hid]
        exact h
      by_cases hmem : sid ∈ p
      · rw [processStream_cons_seen _ _ _ _ _ _ _ _ hcu hs hid hmem] at h
        rw [List.cons_append, processStream_cons_seen _ _ _ _ _ _ _ _ hcu hs hid hmem]
        exact ih l₂ p d p' st h hst
      rcases hex : extract_submission_data s with _ | r
      · rw [processStream_cons_rej _ _ _ _ _ _ _ _ hcu hs hid hmem hex] at h
        rw [List.cons_append, processStream_cons_rej _ _ _ _ _ _ _ _ hcu hs hid hmem hex]
        exact ih l₂ p d p' st h hst
      · rcases hps : processStream skip brk tag l₁
            (commentFold (process_comments s) (sid :: p)).2 with ⟨d₁, p₁, st₁⟩
        rw [processStream_cons_accept _ _ _ _ _ _ _ _ _ hcu hs hid hmem hex, hps] at h
        dsimp only at h
        injection h with h1 h23
        injection h23 with h2 h3
        subst h1
        subst h2
        subst h3
        rw [List.cons_append,
          processStream_cons_accept _ _ _ _ _ _ _ _ _ hcu hs hid hmem hex,
          ih l₂ _ d₁ p₁ st₁ hps hst]

lemma processStream_append_done (skip : Int → Bool) (brk : Bool) (tag : String)
    (l₁ : List (Except Unit RSubmission)) :
    ∀ l₂ p d p', processStream skip brk tag l₁ p = (d, p', .done) →
      processStream skip brk tag (l₁ ++ l₂) p =
        (d ++ (processStream skip brk tag l₂ p').1,
         (processStream skip brk tag l₂ p').2.1,
         (processStream skip brk tag l₂ p').2.2) := by
  induction l₁ with
  | nil =>
    intro l₂ p d p' h
    rw [processStream_nil] at h
    injection h with h1 h23
    injection h23 with h2 h3
    subst h1
    subst h2
    rcases hE : processStream skip brk tag l₂ p with ⟨a, b, c⟩
    simp [hE]
  | cons x l₁ ih =>
    intro l₂ p d p' h
    cases x with
    | error e =>
      rw [processStream_cons_iterErr] at h
      injection h with h1 h23
      injection h23 with h2 h3
      exact PStat.noConfusion h3
    | ok s =>
      rcases hcu : s.created_utc with e | cu
      · rw [processStream_cons_cuErr _ _ _ _ _ _ _ hcu] at h
        injection h with h1 h23
        injection h23 with h2 h3
        exact PStat.noConfusion h3
      by_cases hs : skip cu = true
      · cases brk with
        | true =>
          rw [processStream_cons_brk _ _ _ _ _ _ hcu hs] at h
          injection h with h1 h23
          injection h23 with h2 h3
          exact PStat.noConfusion h3
        | false =>
          rw [List.cons_append, processStream_cons_skip _ _ _ _ _ _ hcu hs]
          rw [processStream_cons_skip _ _ _ _ _ _ hcu hs] at h
          exact ih l₂ p d p' h
      rw [Bool.not_eq_true] at hs
      rcases hid : s.id with e | sid
      · rw [processStream_cons_idErr _ _ _ _ _ _ _ _ hcu hs hid] at h
        injection h with h1 h23
        injection h23 with h2 h3
        exact PStat.noConfusion h3
      by_cases hmem : sid ∈ p
      · rw [List.cons_append, processStream_cons_seen _ _ _ _ _ _ _ _ hcu hs hid hmem]
        rw [processStream_cons_seen _ _ _ _ _ _ _ _ hcu hs hid hmem] at h
        exact ih l₂ p d p' h
      rcases hex : extract_submission_data s with _ | r
      · rw [List.cons_append, processStream_cons_rej _ _ _ _ _ _ _ _ hcu hs hid hmem hex]
        rw [processStream_cons_rej _ _ _ _ _ _ _ _ hcu hs hid hmem hex] at h
        exact ih l₂ p d p' h
      · rcases hps : processStream skip brk tag l₁
            (commentFold (process_comments s) (sid :: p)).2 with ⟨d₁, p₁, st₁⟩
        rw [processStream_cons_accept _ _ _ _ _ _ _ _ _ hcu hs hid hmem hex, hps] at h
        dsimp only at h
        injection h with h1 h23
        injection h23 with h2 h3
        subst h1
        subst h2
        subst h3
        rw [List.cons_append,
          processStream_cons_accept _ _ _ _ _ _ _ _ _ hcu hs hid hmem hex,
          ih l₂ _ d₁ p₁ hps]
        simp

/-- C5: with the `new` (newest) sort order, once an item older than the
cutoff is observed the iteration breaks: nothing after that item is
processed, so the stream behaves exactly as if it ended at that item; with
a non-chronological order (`brkOnSkip = false`, as for hot/top/
controversial), an out-of-range item is skipped and iteration continues
with the rest of the stream. -/
theorem claim_C5_new_early_exit :
    (∀ since tag pre s rest p cu, s.created_utc = .ok cu → cu < since →
      processStream (skipSince since) true tag (pre ++ .ok s :: rest) p =
        processStream (skipSince since) true tag (pre ++ [.ok s]) p)
    ∧ (∀ since tag s rest p cu, s.created_utc = .ok cu → cu < since →
      processStream (skipSince since) false tag (.ok s :: rest) p =
        processStream (skipSince since) false tag rest p)
    ∧ (∀ (fetch fetch' : Option String → List (Except Unit RSubmission))
        since p pre s rest cu, s.created_utc = .ok cu → cu < since →
        fetch none = pre ++ .ok s :: rest → fetch' none = pre ++ [.ok s] →
        collect_sorting fetch since p "new" = collect_sorting fetch' since p "new") := by
  have hskip : ∀ since cu : Int, cu < since → skipSince since cu = true := by
    intro since cu h
    simp [skipSince, h]
  have key : ∀ since tag pre s rest p cu, s.created_utc = .ok cu → cu < since →
      processStream (skipSince since) true tag (pre ++ .ok s :: rest) p =
        processStream (skipSince since) true tag (pre ++ [.ok s]) p := by
    intro since tag pre s rest p cu hcu hlt
    have hstream : pre ++ .ok s :: rest = (pre ++ [Except.ok s]) ++ rest := by
      simp
    rw [hstream]
    rcases hA : processStream (skipSince since) true tag (pre ++ [.ok s]) p
      with ⟨d₀, p₀, st₀⟩
    have hnd : st₀ ≠ .done := by
      intro hdone
      subst hdone
      rcases hB : processStream (skipSince since) true tag pre p with ⟨d₁, p₁, st₁⟩
      cases st₁ with
      | done =>
        have := processStream_append_done (skipSince since) true tag pre [.ok s]
          p d₁ p₁ hB
        rw [hA] at this
        rw [processStream_cons_brk _ _ _ _ _ _ hcu (hskip since cu hlt)] at this
        have h3 := (Prod.mk.injEq .. ▸ (Prod.mk.injEq .. ▸ this).2).2
        simp at h3
      | broke =>
        have := processStream_append_stop (skipSince since) true tag pre [.ok s]
          p d₁ p₁ .broke hB (by intro hc; exact PStat.noConfusion hc)
        rw [hA] at this
        have h3 := (Prod.mk.injEq .. ▸ (Prod.mk.injEq .. ▸ this).2).2
        exact PStat.noConfusion h3
      | raised =>
        have := processStream_append_stop (skipSince since) true tag pre [.ok s]
          p d₁ p₁ .raised hB (by intro hc; exact PStat.noConfusion hc)
        rw [hA] at this
        have h3 := (Prod.mk.injEq .. ▸ (Prod.mk.injEq .. ▸ this).2).2
        exact PStat.noConfusion h3
    rw [processStream_append_stop (skipSince since) true tag
      (pre ++ [Except.ok s]) rest p d₀ p₀ st₀ hA hnd, hA]
  refine ⟨key, ?_, ?_⟩
  · intro since tag s rest p cu hcu hlt
    exact processStream_cons_skip _ _ _ _ _ _ hcu (hskip since cu hlt)
  · intro fetch fetch' since p pre s rest cu hcu hlt hf hf'
    unfold collect_sorting
    have htf : timeFiltersFor "new" = [none] := by decide
    rw [htf]
    unfold collectSortingGo
    rw [hf, hf']
    have hbeq : (("new" == "new") : Bool) = true := rfl
    rw [hbeq]
    rw [key since (sortTag "new" none) pre s rest p cu hcu hlt]
    rcases hdps : processStream (skipSince since) true (sortTag "new" none)
      (pre ++ [Except.ok s]) p with ⟨d₀, p₀, st₀⟩
    cases st₀ <;> simp [collectSortingGo]

/-- Witness for C5 on a concrete old item after one fresh item. -/
theorem claim_C5_new_early_exit_witness :
    processStream (skipSince 2000) false "hot"
        [.ok { okSub with created_utc := .ok 5 }] [] =
      processStream (skipSince 2000) false "hot" [] [] :=
  claim_C5_new_early_exit.2.1 2000 "hot" { okSub with created_utc := .ok 5 }
    [] [] 5 rfl (by decide)

/-- Counterexample to C3: in `collect_sorting` the exception handler
wraps the whole loop over time filters, so a page exception raised during
the `all` filter of the `top` method aborts the remaining `year`, `month`
and `week` filters.  Here the `year` filter holds a fresh, in-range,
extractable submission, yet the strategy output is empty — the claim that
the strategy "still goes on to process its remaining items, pages, and
time filters" fails. -/
theorem claim_C3_counterexample :
    extract_submission_data okSub = some okPostRow
    ∧ okSub.created_utc = .ok 1000
    ∧ skipSince 0 1000 = false
    ∧ cFetchTop (some "year") = [.ok okSub]
    ∧ ("p1" ∈ ([] : List String)) = False
    ∧ collect_sorting cFetchTop 0 [] "top" = ([], []) :=
  ⟨by decide, rfl, by decide, rfl, by simp, rfl⟩

/-- C3 as amended: for the keyword-search/flair-search loop and the
monthly-pagination loop the exception handler sits inside the per-term /
per-window loop, so a raised stream is scoped to that term or window and
the next one is processed exactly as before; in `collect_sorting` the
handler wraps the whole method, so a raised stream ends that method's
remaining time filters, but the data already collected is still returned
(the exception never propagates out of the strategy). -/
theorem claim_C3_exception_scoping :
    (∀ (tagOf : String → String) fetch since t ts p, fetch t = [Except.error ()] →
      collectTermsGo tagOf fetch since (t :: ts) p =
        collectTermsGo tagOf fetch since ts p)
    ∧ (∀ fetch w ws p, fetch w = [Except.error ()] →
      collectMonthlyGo fetch (w :: ws) p = collectMonthlyGo fetch ws p)
    ∧ (∀ fetch since method tf rest p d p',
        processStream (skipSince since) (method == "new") (sortTag method tf)
          (fetch tf) p = (d, p', .raised) →
        collectSortingGo fetch since method (tf :: rest) p = (d, p')) := by
  refine ⟨?_, ?_, ?_⟩
  · intro tagOf fetch since t ts p hf
    conv_lhs => rw [collectTermsGo]
    rw [hf, processStream_cons_iterErr]
    simp
  · intro fetch w ws p hf
    conv_lhs => rw [collectMonthlyGo]
    rw [hf, processStream_cons_iterErr]
    simp
  · intro fetch since method tf rest p d p' h
    conv_lhs => rw [collectSortingGo]
    rw [h]

/-- Witness for the amended C3: a term whose stream raises immediately
contributes nothing and the following terms are processed unchanged. -/
theorem claim_C3_exception_scoping_witness :
    collectTermsGo (fun t => "search_" ++ t) (fun _ => [Except.error ()]) 0
        ["driver"] [] =
      collectTermsGo (fun t => "search_" ++ t) (fun _ => [Except.error ()]) 0
        [] [] :=
  claim_C3_exception_scoping.1 (fun t => "search_" ++ t)
    (fun _ => [Except.error ()]) 0 "driver" [] [] rfl

lemma dedupByKey_pairwise (c : String) :
    ∀ (l : List Row) (seen : List (Option Cell)),
      (dedupByKey c l seen).Pairwise (fun a b => rowGet a c ≠ rowGet b c)
      ∧ ∀ r ∈ dedupByKey c l seen, rowGet r c ∉ seen := by
  intro l
  induction l with
  | nil =>
    intro seen
    exact ⟨List.Pairwise.nil, by simp [dedupByKey]⟩
  | cons r rest ih =>
    intro seen
    unfold dedupByKey
    by_cases hmem : rowGet r c ∈ seen
    · rw [if_pos hmem]
      exact ih seen
    rw [if_neg hmem]
    obtain ⟨ihp, ihs⟩ := ih (rowGet r c :: seen)
    refine ⟨List.Pairwise.cons ?_ ihp, ?_⟩
    · intro b hb heq
      exact (ihs b hb) (by rw [← heq]; exact List.mem_cons_self _ _)
    · intro x hx
      rcases List.mem_cons.1 hx with h1 | h2
      · subst h1
        exact hmem
      · intro hc
        exact (ihs x h2) (List.mem_cons_of_mem _ hc)

lemma idNe_symm : Symmetric idNe := by
  intro a b h
  exact Ne.symm h

/-- C1: any run of `process_dataframe` yields pairwise-distinct ids (the
orchestrator defensive re-check), and inside each strategy a candidate
submission whose id is already in the shared dedup set is skipped before
extraction: its processing step is the identity on data and dedup set. -/
theorem claim_C1_dedup :
    (∀ data df, process_dataframe data = .ok df → df.rows.Pairwise idNe)
    ∧ (∀ skip brk tag s rest p cu sid, s.created_utc = .ok cu →
        skip cu = false → s.id = .ok sid → sid ∈ p →
        processStream skip brk tag (.ok s :: rest) p =
          processStream skip brk tag rest p) := by
  constructor
  · intro data df h
    unfold process_dataframe at h
    dsimp only at h
    split at h
    · split at h
      · injection h with h1
        subst h1
        have hperm : List.Perm
            (List.insertionSort byTsDesc
              (dedupByKey "id" (data.map (padRow (unionKeys data))) []))
            (dedupByKey "id" (data.map (padRow (unionKeys data))) []) :=
          List.perm_insertionSort byTsDesc _
        have hpair := (dedupByKey_pairwise "id"
          (data.map (padRow (unionKeys data))) []).1
        exact ((hperm.pairwise_iff (fun hxy => idNe_symm hxy)).2 hpair)
      · exact Except.noConfusion h
    · exact Except.noConfusion h
  · intro skip brk tag s rest p cu sid hcu hs hid hmem
    exact processStream_cons_seen _ _ _ _ _ _ _ _ hcu hs hid hmem

/-- Witness for C1: two records sharing the id `a` collapse to one. -/
theorem claim_C1_dedup_witness :
    process_dataframe cDupData = .ok cDupDF ∧ cDupDF.rows.Pairwise idNe :=
  ⟨by decide, claim_C1_dedup.1 cDupData cDupDF (by decide)⟩

lemma transform_rows (df : DataFrame) (app : String) (out : DataFrame)
    (h : transform_data df app = .ok out) :
    out.rows = (df.rows.filter keepRow).map (normRow df.cols app)
    ∧ (df.rows.filter keepRow).Sublist df.rows := by
  unfold transform_data at h
  dsimp only at h
  split at h
  · split at h
    · split at h
      · split at h
        · split at h
          · injection h with h1
            subst h1
            refine ⟨?_, List.filter_sublist _⟩
            simp only [List.map_map]
            rfl
          · exact Except.noConfusion h
        · exact Except.noConfusion h
      · exact Except.noConfusion h
    · exact Except.noConfusion h
  · exact Except.noConfusion h

/-- C7: the raw snapshot built by `process_dataframe` is sorted by
creation timestamp descending (`byTsDesc`, NaN keys last), and
normalization only filters rows and rewrites them in place: the rows of a
successful `transform_data` are exactly the per-row images of the kept
rows, which form an order-preserving subsequence of the raw rows. -/
theorem claim_C7_ordering :
    (∀ data df, process_dataframe data = .ok df → df.rows.Sorted byTsDesc)
    ∧ (∀ df app out, transform_data df app = .ok out →
        out.rows = (df.rows.filter keepRow).map (normRow df.cols app)
        ∧ (df.rows.filter keepRow).Sublist df.rows) := by
  constructor
  · intro data df h
    unfold process_dataframe at h
    dsimp only at h
    split at h
    · split at h
      · injection h with h1
        subst h1
        exact List.sorted_insertionSort byTsDesc _
      · exact Except.noConfusion h
    · exact Except.noConfusion h
  · intro df app out h
    exact transform_rows df app out h

/-- Witness for C7 at the concrete raw frame and snapshot. -/
theorem claim_C7_ordering_witness :
    process_dataframe cDupData = .ok cDupDF ∧ cDupDF.rows.Sorted byTsDesc :=
  ⟨by decide, claim_C7_ordering.1 cDupData cDupDF (by decide)⟩

lemma renameFn_ne_complaint (k : String) : renameFn k ≠ "complaint" := by
  unfold renameFn
  by_cases h1 : k = "complaint"
  · simp [h1]
  by_cases h2 : k = "timestamp_dt"
  · simp [h1, h2]
  by_cases h3 : k = "upvotes"
  · simp [h1, h2, h3]
  · simp [h1, h2, h3]

lemma mem_colsAfterSet (cols : List String) (c c' : String)
    (h : c' ∈ colsAfterSet cols c) : c' ∈ cols ∨ c' = c := by
  unfold colsAfterSet at h
  split at h
  · exact Or.inl h
  · rcases List.mem_append.1 h with h1 | h2
    · exact Or.inl h1
    · exact Or.inr (List.mem_singleton.1 h2)

/-- C8 counterexample: running normalization twice on the same raw
snapshot is not byte-identical to running it once — the second application
fails with a `KeyError` instead of reproducing the output. -/
theorem claim_C8_counterexample :
    transform_data cDF6 "App" = .ok cOut6
    ∧ transformTwice cDF6 "App" = .error "KeyError: complaint"
    ∧ transformTwice cDF6 "App" ≠ transform_data cDF6 "App" :=
  ⟨by decide, by decide, by decide⟩

/-- C8 as amended: normalization is a pure function, so re-running it on
the same raw snapshot reproduces the same output, but it is not
idempotent: its output no longer has a `complaint` column, so applying
the step to its own output always fails with `KeyError: complaint`. -/
theorem claim_C8_not_idempotent (df : DataFrame) (app : String)
    (out : DataFrame) (h : transform_data df app = .ok out) :
    "complaint" ∉ out.cols
    ∧ transform_data out app = .error "KeyError: complaint" := by
  have hnc : "complaint" ∉ out.cols := by
    unfold transform_data at h
    dsimp only at h
    split at h
    · split at h
      · split at h
        · split at h
          · split at h
            · injection h with h1
              subst h1
              intro hmem
              simp only [List.mem_filter] at hmem
              rcases mem_colsAfterSet _ _ _ hmem.1 with hx | hx
              · rcases mem_colsAfterSet _ _ _ hx with hy | hy
                · obtain ⟨k, _, hk⟩ := List.mem_map.1 hy
                  exact renameFn_ne_complaint k hk
                · exact absurd hy (by decide)
              · exact absurd hx (by decide)
            · exact Except.noConfusion h
          · exact Except.noConfusion h
        · exact Except.noConfusion h
      · exact Except.noConfusion h
    · exact Except.noConfusion h
  refine ⟨hnc, ?_⟩
  unfold transform_data
  rw [if_neg (by simpa using hnc)]

/-- Witness for the amended C8 at the concrete frame. -/
theorem claim_C8_not_idempotent_witness :
    "complaint" ∉ cOut6.cols
    ∧ transform_data cOut6 "App" = .error "KeyError: complaint" :=
  claim_C8_not_idempotent cDF6 "App" cOut6 (by decide)

lemma rowGet_dropKeys (cs : List String) (r : Row) (c : String)
    (hc : cs.contains c = false) : rowGet (dropKeys cs r) c = rowGet r c := by
  induction r with
  | nil => rfl
  | cons kv rest ih =>
    obtain ⟨k, v⟩ := kv
    unfold dropKeys
    by_cases hk : cs.contains k = true
    · have hne : k ≠ c := by
        intro he
        rw [he, hc] at hk
        exact Bool.noConfusion hk
      rw [if_pos hk, ih]
      conv_rhs => rw [rowGet]
      rw [if_neg hne]
    · rw [if_neg hk]
      unfold rowGet
      by_cases he : k = c
      · rw [if_pos he, if_pos he]
      · rw [if_neg he, if_neg he]
        exact ih

lemma rowGet_setKey_ne (c : String) (v : Cell) (r : Row) (c' : String)
    (h : c' ≠ c) : rowGet (setKey c v r) c' = rowGet r c' := by
  induction r with
  | nil => rfl
  | cons kv rest ih =>
    obtain ⟨k, w⟩ := kv
    unfold setKey
    rw [List.map_cons]
    dsimp only
    by_cases hk : k = c
    · rw [if_pos hk]
      unfold rowGet
      rw [if_neg (Ne.symm h), if_neg (show ¬ k = c' by rw [hk]; exact Ne.symm h)]
      exact ih
    · rw [if_neg hk]
      unfold rowGet
      by_cases he : k = c'
      · rw [if_pos he, if_pos he]
      · rw [if_neg he, if_neg he]
        exact ih

lemma rowGet_append_one_ne (r : Row) (c : String) (v : Cell) (c' : String)
    (h : c' ≠ c) : rowGet (r ++ [(c, v)]) c' = rowGet r c' := by
  induction r with
  | nil =>
    rw [List.nil_append]
    unfold rowGet
    rw [if_neg (Ne.symm h)]
    rfl
  | cons kv rest ih =>
    obtain ⟨k, w⟩ := kv
    rw [List.cons_append]
    unfold rowGet
    by_cases he : k = c'
    · rw [if_pos he, if_pos he]
    · rw [if_neg he, if_neg he]
      exact ih

lemma rowGet_setConstRow_ne (cols : List String) (c : String) (v : Cell)
    (r : Row) (c' : String) (h : c' ≠ c) :
    rowGet (setConstRow cols c v r) c' = rowGet r c' := by
  unfold setConstRow
  split
  · exact rowGet_setKey_ne c v r c' h
  · exact rowGet_append_one_ne r c v c' h

lemma rowGet_lowerCellAt_eq (c : String) (r : Row) :
    rowGet (lowerCellAt c r) c = (rowGet r c).map cellLower := by
  induction r with
  | nil => rfl
  | cons kv rest ih =>
    obtain ⟨k, w⟩ := kv
    unfold lowerCellAt
    rw [List.map_cons]
    dsimp only
    by_cases hk : k = c
    · rw [if_pos hk]
      unfold rowGet
      rw [if_pos hk, if_pos hk]
      rfl
    · rw [if_neg hk]
      unfold rowGet
      rw [if_neg hk, if_neg hk]
      exact ih

lemma rowGet_lowerCellAt_ne (c : String) (r : Row) (c' : String) (h : c' ≠ c) :
    rowGet (lowerCellAt c r) c' = rowGet r c' := by
  induction r with
  | nil => rfl
  | cons kv rest ih =>
    obtain ⟨k, w⟩ := kv
    unfold lowerCellAt
    rw [List.map_cons]
    dsimp only
    by_cases hk : k = c
    · rw [if_pos hk]
      unfold rowGet
      rw [if_neg (show ¬ k = c' by rw [hk]; exact fun he => h he.symm)]
      rw [if_neg (show ¬ k = c' by rw [hk]; exact fun he => h he.symm)]
      exact ih
    · rw [if_neg hk]
      unfold rowGet
      by_cases he : k = c'
      · rw [if_pos he, if_pos he]
      · rw [if_neg he, if_neg he]
        exact ih

lemma keys_lowerCellAt (c : String) (r : Row) :
    (lowerCellAt c r).map Prod.fst = r.map Prod.fst := by
  induction r with
  | nil => rfl
  | cons kv rest ih =>
    obtain ⟨k, w⟩ := kv
    unfold lowerCellAt
    rw [List.map_cons, List.map_cons]
    dsimp only
    by_cases hk : k = c
    · rw [if_pos hk]
      unfold lowerCellAt at ih
      rw [List.map_cons, ih]
    · rw [if_neg hk]
      unfold lowerCellAt at ih
      rw [List.map_cons, ih]

lemma rowGet_renameKeys (f : String → String) (r : Row) (c c' : String)
    (hiff : ∀ k ∈ r.map Prod.fst, (f k = c' ↔ k = c)) :
    rowGet (renameKeys f r) c' = rowGet r c := by
  induction r with
  | nil => rfl
  | cons kv rest ih =>
    obtain ⟨k, w⟩ := kv
    unfold renameKeys
    rw [List.map_cons]
    dsimp only
    have hhead := hiff k (by simp)
    unfold rowGet
    by_cases hk : f k = c'
    · rw [if_pos hk, if_pos (hhead.1 hk)]
    · rw [if_neg hk, if_neg (fun he => hk (hhead.2 he))]
      exact ih (fun k2 hk2 => hiff k2 (by simp [hk2]))

lemma upperNat_toLower (c : Char) : upperNat (Char.toLower c) = false := by
  unfold Char.toLower
  by_cases h : c.toNat ≥ 65 ∧ c.toNat ≤ 90
  · rw [if_pos h]
    obtain ⟨h1, h2⟩ := h
    set n := c.toNat with hn
    interval_cases n <;> decide
  · rw [if_neg h]
    unfold upperNat
    simp only [Bool.and_eq_false_iff, decide_eq_false_iff_not]
    omega

lemma hasUpper_lowerStr (t : String) : hasUpper (lowerStr t) = false := by
  unfold hasUpper lowerStr
  rw [List.any_eq_false]
  intro c hc
  obtain ⟨c₀, _, rfl⟩ := List.mem_map.1 hc
  rw [upperNat_toLower]
  exact Bool.false_ne_true

/-- C6: in the persisted processed set of the discussion source, every
row's review text is present, non-null and fully lowercased (no uppercase
ASCII letter), and every row's review timestamp is present and non-null
(null rows are dropped during normalization, before persistence). The
hypotheses say the raw frame is well-formed: rows follow the frame's
columns, the `complaint` cells are strings or NaN, and the raw schema
does not already use the post-rename column names. -/
theorem claim_C6_processed_invariants :
    ∀ df app, (∀ r ∈ df.rows, r.map Prod.fst = df.cols) →
      (∀ r ∈ df.rows, complaintCellOk r = true) →
      "review" ∉ df.cols → "review_datetime" ∉ df.cols →
      ∀ r ∈ resultRows (transform_data df app),
        reviewOk r = true ∧ tsOk r = true := by
  intro df app hWF hCC hRv hRD r hr
  rcases htr : transform_data df app with e | out
  · rw [htr] at hr
    simp [resultRows] at hr
  rw [htr] at hr
  have hr2 : r ∈ out.rows := hr
  rw [(transform_rows df app out htr).1] at hr2
  obtain ⟨r₀, hr₀, rfl⟩ := List.mem_map.1 hr2
  obtain ⟨hr₀mem, hkeep⟩ := List.mem_filter.1 hr₀
  unfold keepRow at hkeep
  rw [Bool.and_eq_true] at hkeep
  obtain ⟨hkc, hkt⟩ := hkeep
  have hCCr := hCC r₀ hr₀mem
  have hkeys : (lowerCellAt "complaint" r₀).map Prod.fst = df.cols := by
    rw [keys_lowerCellAt]
    exact hWF r₀ hr₀mem
  have hiffR : ∀ k ∈ (lowerCellAt "complaint" r₀).map Prod.fst,
      (renameFn k = "review" ↔ k = "complaint") := by
    rw [hkeys]
    intro k hk
    constructor
    · intro hfk
      by_cases e1 : k = "complaint"
      · exact e1
      by_cases e2 : k = "timestamp_dt"
      · rw [e2] at hfk
        exact absurd hfk (by decide)
      by_cases e3 : k = "upvotes"
      · rw [e3] at hfk
        exact absurd hfk (by decide)
      · have hfkk : renameFn k = k := by simp [renameFn, e1, e2, e3]
        rw [hfkk] at hfk
        exact absurd (hfk ▸ hk) hRv
    · intro he
      rw [he]
      decide
  have hiffT : ∀ k ∈ (lowerCellAt "complaint" r₀).map Prod.fst,
      (renameFn k = "review_datetime" ↔ k = "timestamp_dt") := by
    rw [hkeys]
    intro k hk
    constructor
    · intro hfk
      by_cases e1 : k = "complaint"
      · rw [e1] at hfk
        exact absurd hfk (by decide)
      by_cases e2 : k = "timestamp_dt"
      · exact e2
      by_cases e3 : k = "upvotes"
      · rw [e3] at hfk
        exact absurd hfk (by decide)
      · have hfkk : renameFn k = k := by simp [renameFn, e1, e2, e3]
        rw [hfkk] at hfk
        exact absurd (hfk ▸ hk) hRD
    · intro he
      rw [he]
      decide
  constructor
  · unfold reviewOk normRow
    rw [rowGet_dropKeys _ _ _ (by decide)]
    rw [rowGet_setConstRow_ne _ _ _ _ _ (by decide)]
    rw [rowGet_setConstRow_ne _ _ _ _ _ (by decide)]
    rw [rowGet_renameKeys renameFn _ "complaint" "review" hiffR]
    rw [rowGet_lowerCellAt_eq]
    unfold complaintCellOk at hCCr
    unfold cellNotNull at hkc
    rcases hcell : rowGet r₀ "complaint" with _ | cell
    · rw [hcell] at hkc
      exact Bool.noConfusion hkc
    rcases cell with t | n | b | _
    · show (!(hasUpper (lowerStr t))) = true
      rw [hasUpper_lowerStr]
      rfl
    · rw [hcell] at hCCr
      exact Bool.noConfusion hCCr
    · rw [hcell] at hCCr
      exact Bool.noConfusion hCCr
    · rw [hcell] at hkc
      exact Bool.noConfusion hkc
  · unfold tsOk normRow
    rw [rowGet_dropKeys _ _ _ (by decide)]
    rw [rowGet_setConstRow_ne _ _ _ _ _ (by decide)]
    rw [rowGet_setConstRow_ne _ _ _ _ _ (by decide)]
    rw [rowGet_renameKeys renameFn _ "timestamp_dt" "review_datetime" hiffT]
    rw [rowGet_lowerCellAt_ne _ _ _ (by decide)]
    unfold cellNotNull at hkt
    rcases hcell : rowGet r₀ "timestamp_dt" with _ | cell
    · rw [hcell] at hkt
      exact Bool.noConfusion hkt
    rcases cell with t | n | b | _
    · rfl
    · rfl
    · rfl
    · rw [hcell] at hkt
      exact Bool.noConfusion hkt

/-- Witness for C6 at the concrete one-row raw frame. -/
theorem claim_C6_processed_invariants_witness :
    reviewOk cOut6Row = true ∧ tsOk cOut6Row = true :=
  claim_C6_processed_invariants cDF6 "App" (by decide) (by decide) (by decide)
    (by decide) cOut6Row (by decide)

end RedditETL
